import Mathlib

/- Shallow embedding of the `rt` ray tracer (src/maths.rs, src/object.rs,
   src/raytracer.rs, src/scene.rs) over exact rationals.

   Modelling conventions:
   - `f64` values are modelled as `ℚ`; `f64::INFINITY` (used as an unbounded
     upper ray-parameter bound) is modelled as `⊤ : WithTop ℚ`.
   - `f64::sqrt` is irrational in general, so every definition that needs it
     takes an explicit square-root function `sq : ℚ → ℚ`; `ratSqrt` below is
     a computable instance that is exact on perfect squares (which is also
     exactly where `f64::sqrt` is exact on small inputs).
   - random number generators are modelled as explicit streams of rationals
     in [0,1), passed as arguments.  -/

/-! maths.rs -/

def EPSILON : ℚ := 1 / 1000000

structure Vec3 where
  x : ℚ
  y : ℚ
  z : ℚ
deriving DecidableEq, Repr

namespace Vec3

def new (x y z : ℚ) : Vec3 := ⟨x, y, z⟩

def origin : Vec3 := ⟨0, 0, 0⟩

def cleanup (v : ℚ) : ℚ := if -EPSILON ≤ v ∧ v ≤ EPSILON then 0 else v

def new_clean (s : Vec3) : Vec3 := ⟨cleanup s.x, cleanup s.y, cleanup s.z⟩

def length_sq (s : Vec3) : ℚ := s.x * s.x + s.y * s.y + s.z * s.z

def to_normalized (sq : ℚ → ℚ) (s : Vec3) : Vec3 :=
  let d := sq s.length_sq
  ⟨s.x / d, s.y / d, s.z / d⟩

def cross_product (s v : Vec3) : Vec3 :=
  ⟨s.y * v.z - s.z * v.y, s.z * v.x - s.x * v.z, s.x * v.y - s.y * v.x⟩

def dot_product (s v : Vec3) : ℚ := s.x * v.x + s.y * v.y + s.z * v.z

def translate (s v : Vec3) (d : ℚ) : Vec3 :=
  ⟨s.x + v.x * d, s.y + v.y * d, s.z + v.z * d⟩

def length_sq_to (s p : Vec3) : ℚ :=
  (s.x - p.x) * (s.x - p.x) + (s.y - p.y) * (s.y - p.y) + (s.z - p.z) * (s.z - p.z)

def to' (s dest : Vec3) : Vec3 := ⟨dest.x - s.x, dest.y - s.y, dest.z - s.z⟩

def avg (s w : Vec3) : Vec3 := ⟨(w.x + s.x) / 2, (w.y + s.y) / 2, (w.z + s.z) / 2⟩

def at' (s from_ : Vec3) (t : ℚ) : Vec3 :=
  ⟨from_.x + t * s.x, from_.y + t * s.y, from_.z + t * s.z⟩

def addv (s b : Vec3) : Vec3 := ⟨s.x + b.x, s.y + b.y, s.z + b.z⟩

def multv (s b : Vec3) : Vec3 := ⟨s.x * b.x, s.y * b.y, s.z * b.z⟩

def mult (s : Vec3) (d : ℚ) : Vec3 := ⟨s.x * d, s.y * d, s.z * d⟩

def div (s : Vec3) (d : ℚ) : Vec3 := ⟨s.x / d, s.y / d, s.z / d⟩

def mix (s v : Vec3) (c : ℚ) : Vec3 :=
  ⟨s.x * (1 - c) + v.x * c, s.y * (1 - c) + v.y * c, s.z * (1 - c) + v.z * c⟩

/-- Vec3::random_in_unit_sphere, with the three `rng.gen::<f64>()` draws
(uniform in [0,1)) made explicit arguments. -/
def random_in_unit_sphere (sq : ℚ → ℚ) (r1 r2 r3 : ℚ) : Vec3 :=
  let v : Vec3 := Vec3.new (2 * r1 - 1) (2 * r2 - 1) (2 * r3 - 1)
  v.to_normalized sq

end Vec3

/-- Computable square root on ℚ: exact whenever the argument is the square of
a rational, an under-approximation otherwise (component-wise `Nat.sqrt` on the
reduced numerator and denominator). -/
def ratSqrt (q : ℚ) : ℚ := (Nat.sqrt q.num.toNat : ℚ) / (Nat.sqrt q.den : ℚ)

/-- An RGB byte pixel, as in `image::Rgb<u8>` (each channel a byte 0..255). -/
structure Rgb where
  r : ℕ
  g : ℕ
  b : ℕ
deriving DecidableEq, Repr

/-- The per-channel clamp-and-quantize of `impl Into<Rgb<u8>> for Vec3`:
`v <= 0 → 0`, `v >= 1 → 255`, else `(v * 256) as u8` (truncation toward zero,
i.e. floor on this nonnegative range). -/
def convert (v : ℚ) : ℕ :=
  if v ≤ 0 then 0
  else if 1 ≤ v then 255
  else (⌊v * 256⌋).toNat

/-- `impl Into<Rgb<u8>> for Vec3`. -/
def vec3ToRgb (v : Vec3) : Rgb := ⟨convert v.x, convert v.y, convert v.z⟩

/-- `impl Into<Vec3> for Rgb<u8>`. -/
def rgbToVec3 (p : Rgb) : Vec3 := ⟨(p.r : ℚ) / 256, (p.g : ℚ) / 256, (p.b : ℚ) / 256⟩

structure Row4 where
  a : ℚ
  b : ℚ
  c : ℚ
  d : ℚ
deriving DecidableEq, Repr

/-- Elimination step `rI = f * rI - g * rJ` (component-wise) used by the solver. -/
def rowElim (f g : ℚ) (ri rj : Row4) : Row4 :=
  ⟨f * ri.a - g * rj.a, f * ri.b - g * rj.b, f * ri.c - g * rj.c, f * ri.d - g * rj.d⟩

/-- solve_3variable_system (src/maths.rs): Gaussian elimination with row swaps
tracked in `shuffle` so the solution components can be swapped back. -/
def solve_3variable_system (a b c p : Vec3) : Option Vec3 :=
  let r1 : Row4 := ⟨a.x, b.x, c.x, p.x⟩
  let r2 : Row4 := ⟨a.y, b.y, c.y, p.y⟩
  let r3 : Row4 := ⟨a.z, b.z, c.z, p.z⟩
  let shuffle : Vec3 := ⟨1, 2, 3⟩
  -- first pivot: swap Row1 with Row2 or Row3 when needed
  let st1 : Option (Row4 × Row4 × Row4 × Vec3) :=
    if r1.a ≠ 0 then some (r1, r2, r3, shuffle)
    else if r2.a ≠ 0 then some (r2, r1, r3, ⟨shuffle.y, shuffle.x, shuffle.z⟩)
    else if r3.a ≠ 0 then some (r3, r2, r1, ⟨shuffle.z, shuffle.y, shuffle.x⟩)
    else none
  match st1 with
  | none => none
  | some (r1, r2, r3, shuffle) =>
    -- second pivot: swap Row2 with Row3 when needed
    let st2 : Option (Row4 × Row4 × Vec3) :=
      if r2.b ≠ 0 then some (r2, r3, shuffle)
      else if r3.b ≠ 0 then some (r3, r2, ⟨shuffle.x, shuffle.z, shuffle.y⟩)
      else none
    match st2 with
    | none => none
    | some (r2, r3, shuffle) =>
      if r3.c = 0 then none
      else
        -- 1st step, put a 0 in r3.a using r1 and r3 rows
        let r3 := if r3.a ≠ 0 then rowElim r1.a r3.a r3 r1 else r3
        -- 2nd step, put a 0 in r2.a using r1 and r2 rows
        let r2 := if r2.a ≠ 0 then rowElim r1.a r2.a r2 r1 else r2
        -- 3rd step, put a 0 in r2.b using r2 and r3 rows
        let r3 := if r2.b ≠ 0 then rowElim r2.b r3.b r3 r2 else r3
        if r3.c = 0 ∨ r2.b = 0 ∨ r1.a = 0 then none
        else
          let z := r3.d / r3.c
          let y := (r2.d - z * r2.c) / r2.b
          let x := (r1.d - z * r1.c - y * r1.b) / r1.a
          let r : Vec3 := ⟨x, y, z⟩
          -- shuffle back
          let sr : Vec3 × Vec3 :=
            if shuffle.x ≠ 1 then
              if shuffle.y = 1 then (⟨r.y, r.x, r.z⟩, ⟨shuffle.y, shuffle.x, shuffle.z⟩)
              else (⟨r.z, r.y, r.x⟩, ⟨shuffle.z, shuffle.y, shuffle.x⟩)
            else (r, shuffle)
          let r := sr.1
          let shuffle := sr.2
          let r := if shuffle.y ≠ 2 then Vec3.mk r.x r.z r.y else r
          some r

/-! raytracer.rs: Hit and Ray records (used by object.rs) -/

structure Hit where
  color : Vec3
  normal : Vec3
  p : Vec3
  t : ℚ
deriving DecidableEq, Repr

structure Ray where
  origin : Vec3
  direction : Vec3
deriving DecidableEq, Repr

def Ray.at' (r : Ray) (t : ℚ) : Vec3 := r.direction.at' r.origin t

/-! object.rs -/

structure Plan where
  p : Vec3
  normal : Vec3
  color : Vec3
deriving DecidableEq, Repr

def Plan.new (p normal : Vec3) (color : Rgb) : Plan := ⟨p, normal, rgbToVec3 color⟩

/-- Plan::hits: rays with `direction·normal >= EPSILON` are rejected, the plane
equation is solved for `t`, and the hit is kept only for `tmin < t < tmax`. -/
def Plan.hits (pl : Plan) (ray : Ray) (tmin : ℚ) (tmax : WithTop ℚ) : Option Hit :=
  let dn := ray.direction.dot_product pl.normal
  if EPSILON ≤ dn then none
  else
    let to_plan := ray.origin.to' pl.p
    let t := to_plan.dot_product pl.normal / dn
    if t ≤ tmin ∨ tmax ≤ (t : WithTop ℚ) then none
    else some ⟨pl.color, pl.normal, ray.at' t, t⟩

structure Sphere where
  center : Vec3
  radius : ℚ
  rd_sq : ℚ
  color : Vec3
deriving DecidableEq, Repr

def Sphere.new (center : Vec3) (radius : ℚ) (color : Rgb) : Sphere :=
  ⟨center, radius, radius * radius, rgbToVec3 color⟩

/-- Sphere::hits: quadratic from the ray/sphere equation, no hit on
non-positive discriminant, smaller root preferred, each root kept only when
strictly inside `(tmin, tmax)`. -/
def Sphere.hits (sq : ℚ → ℚ) (s : Sphere) (ray : Ray) (tmin : ℚ) (tmax : WithTop ℚ) :
    Option Hit :=
  let oc := s.center.to' ray.origin
  let a := ray.direction.dot_product ray.direction
  let b := oc.dot_product ray.direction
  let c := oc.dot_product oc - s.rd_sq
  let discrimant := b * b - a * c
  if discrimant ≤ 0 then none
  else
    let discrimant_sqrt := sq discrimant
    let t1 := (-b - discrimant_sqrt) / a
    if tmin < t1 ∧ (t1 : WithTop ℚ) < tmax then
      let p := ray.at' t1
      some ⟨s.color, (s.center.to' p).div s.radius, p, t1⟩
    else
      let t2 := (-b + discrimant_sqrt) / a
      if tmin < t2 ∧ (t2 : WithTop ℚ) < tmax then
        let p := ray.at' t2
        some ⟨s.color, (s.center.to' p).div s.radius, p, t2⟩
      else none

structure Ellipsoid where
  center : Vec3
  translation : Vec3
  radii : Vec3
  inv_radii : Vec3
  sphere : Sphere
deriving DecidableEq, Repr

/-- Modelled from the spec: `Vec3::opposite` is called by `Ellipsoid::new`
(src/object.rs line 136) but absent from src/maths.rs; per spec §4.2 the
translation is "translate by −center", i.e. component-wise negation. -/
def Vec3.opposite (v : Vec3) : Vec3 := ⟨-v.x, -v.y, -v.z⟩

/-- Modelled from the spec: the `radii.invert()` call in `Ellipsoid::new`
(src/object.rs line 137) has no matching definition in src/maths.rs (the
`invert` there negates); per spec §4.2 it is "scale by inverse per-axis
radii", i.e. the component-wise reciprocal. -/
def Vec3.inverted (v : Vec3) : Vec3 := ⟨1 / v.x, 1 / v.y, 1 / v.z⟩

def Ellipsoid.new (center : Vec3) (radii : Vec3) (color : Rgb) : Ellipsoid :=
  ⟨center, center.opposite, radii, radii.inverted, Sphere.new Vec3.origin 1 color⟩

/-- Ellipsoid::hits: transform the ray into the unit sphere's frame, delegate,
then map the hit point (and only the point) back; the normal and `t` are the
unit-sphere hit's values, unchanged. -/
def Ellipsoid.hits (sq : ℚ → ℚ) (e : Ellipsoid) (ray : Ray) (tmin : ℚ) (tmax : WithTop ℚ) :
    Option Hit :=
  let ray2 : Ray := ⟨(ray.origin.addv e.translation).multv e.inv_radii,
                     ray.direction.multv e.inv_radii⟩
  match e.sphere.hits sq ray2 tmin tmax with
  | some hit => some ⟨hit.color, hit.normal, (hit.p.multv e.radii).addv e.center, hit.t⟩
  | none => none

structure Triangle where
  a : Vec3
  b : Vec3
  c : Vec3
  normal : Vec3
  color : Vec3
deriving DecidableEq, Repr

def Triangle.new_ref (sq : ℚ → ℚ) (a b c : Vec3) (color : Rgb) : Triangle :=
  let a := a.new_clean
  let b := b.new_clean
  let c := c.new_clean
  let ba := b.to' a
  let bc := b.to' c
  let normal := (ba.cross_product bc).to_normalized sq
  ⟨a, b, c, normal, rgbToVec3 color⟩

/-- Triangle::hits: plane intersection exactly as for Plan (with the plane
side test `dn >= 0` and the open interval test on `t`), then containment via
the linear solver, rejecting any negative weight. -/
def Triangle.hits (tr : Triangle) (ray : Ray) (tmin : ℚ) (tmax : WithTop ℚ) : Option Hit :=
  let dn := ray.direction.dot_product tr.normal
  if 0 ≤ dn then none
  else
    let to_plan := ray.origin.to' tr.a
    let t := to_plan.dot_product tr.normal / dn
    if t ≤ tmin ∨ tmax ≤ (t : WithTop ℚ) then none
    else
      let p := ray.at' t
      match solve_3variable_system tr.a tr.b tr.c p with
      | some w =>
        if w.x < 0 ∨ w.y < 0 ∨ w.z < 0 then none
        else some ⟨tr.color, tr.normal, p, t⟩
      | none => none

/-- The shared keep-the-nearest child scan of Tetrahedron::hits, Conifer::hits,
Owl::hits and Signature::hits: each child is queried on `(0, t_min)` where
`t_min` is the running nearest `t` (initially infinity), and a child hit is
kept when `hit.t < t_min && hit.t >= tmin && hit.t <= tmax`. -/
def nearestLoop (f : α → WithTop ℚ → Option Hit) (tmin : ℚ) (tmax : WithTop ℚ) :
    List α → WithTop ℚ → Option Hit → Option Hit
  | [], _, acc => acc
  | o :: rest, t_min, acc =>
    match f o t_min with
    | some hit =>
      if (hit.t : WithTop ℚ) < t_min ∧ tmin ≤ hit.t ∧ (hit.t : WithTop ℚ) ≤ tmax then
        nearestLoop f tmin tmax rest (hit.t : WithTop ℚ) (some hit)
      else nearestLoop f tmin tmax rest t_min acc
    | none => nearestLoop f tmin tmax rest t_min acc

structure Tetrahedron where
  base : Triangle
  side1 : Triangle
  side2 : Triangle
  side3 : Triangle
  color : Vec3
deriving DecidableEq, Repr

def Tetrahedron.hits (th : Tetrahedron) (ray : Ray) (tmin : ℚ) (tmax : WithTop ℚ) :
    Option Hit :=
  nearestLoop (fun tr t_min => tr.hits ray 0 t_min) tmin tmax
    [th.base, th.side1, th.side2, th.side3] ⊤ none

structure Conifer where
  tetrahedrons : List Tetrahedron
  bounding_sphere : Sphere
  top : Vec3
  height : ℚ
  color : Vec3
deriving DecidableEq, Repr

def Conifer.hits (sq : ℚ → ℚ) (cf : Conifer) (ray : Ray) (tmin : ℚ) (tmax : WithTop ℚ) :
    Option Hit :=
  match cf.bounding_sphere.hits sq ray 0 ⊤ with
  | some _ => nearestLoop (fun th t_min => th.hits ray 0 t_min) tmin tmax cf.tetrahedrons ⊤ none
  | none => none

/-- The child objects actually stored in the `Vec<Box<Object + Sync + Send>>`
of Owl (spheres, ellipsoids, tetrahedra) and Signature (spheres). -/
inductive SubObject where
  | sphere (s : Sphere)
  | ellipsoid (e : Ellipsoid)
  | tetrahedron (t : Tetrahedron)
deriving DecidableEq, Repr

def SubObject.hits (sq : ℚ → ℚ) (o : SubObject) (ray : Ray) (tmin : ℚ) (tmax : WithTop ℚ) :
    Option Hit :=
  match o with
  | sphere s => s.hits sq ray tmin tmax
  | ellipsoid e => e.hits sq ray tmin tmax
  | tetrahedron t => t.hits ray tmin tmax

structure Owl where
  objects : List SubObject
  bounding_sphere : Sphere
deriving DecidableEq, Repr

def Owl.hits (sq : ℚ → ℚ) (ow : Owl) (ray : Ray) (tmin : ℚ) (tmax : WithTop ℚ) : Option Hit :=
  match ow.bounding_sphere.hits sq ray 0 ⊤ with
  | some _ => nearestLoop (fun o t_min => o.hits sq ray 0 t_min) tmin tmax ow.objects ⊤ none
  | none => none

structure Signature where
  objects : List SubObject
  bounding_sphere : Sphere
deriving DecidableEq, Repr

def Signature.hits (sq : ℚ → ℚ) (sg : Signature) (ray : Ray) (tmin : ℚ) (tmax : WithTop ℚ) :
    Option Hit :=
  match sg.bounding_sphere.hits sq ray 0 ⊤ with
  | some _ => nearestLoop (fun o t_min => o.hits sq ray 0 t_min) tmin tmax sg.objects ⊤ none
  | none => none

/-- The closed sum of the primitive object kinds (the `Object` implementors of
src/object.rs), with ray intersection dispatched over it. -/
inductive BaseObject where
  | plan (p : Plan)
  | sphere (s : Sphere)
  | ellipsoid (e : Ellipsoid)
  | triangle (t : Triangle)
  | tetrahedron (t : Tetrahedron)
  | conifer (c : Conifer)
  | owl (o : Owl)
  | signature (s : Signature)
deriving DecidableEq, Repr

def BaseObject.hits (sq : ℚ → ℚ) (o : BaseObject) (ray : Ray) (tmin : ℚ) (tmax : WithTop ℚ) :
    Option Hit :=
  match o with
  | plan p => p.hits ray tmin tmax
  | sphere s => s.hits sq ray tmin tmax
  | ellipsoid e => e.hits sq ray tmin tmax
  | triangle t => t.hits ray tmin tmax
  | tetrahedron t => t.hits ray tmin tmax
  | conifer c => c.hits sq ray tmin tmax
  | owl o => o.hits sq ray tmin tmax
  | signature s => s.hits sq ray tmin tmax

/-! raytracer.rs -/

def DEPTH_MAX : ℕ := 8

structure Scene where
  objects : List BaseObject
  sun : Option (Vec3 × Vec3 × ℚ)

/-- The nearest-hit scan of the free function `hits` (src/raytracer.rs):
each object is queried on `(0, hit_min.t)`; the sentinel `t = INFINITY` of
the initial `Hit::new()` is modelled by `none`. -/
def hitsLoop (sq : ℚ → ℚ) (ray : Ray) : List BaseObject → Option Hit → Option Hit
  | [], acc => acc
  | o :: rest, acc =>
    let t_min : WithTop ℚ := match acc with
      | none => ⊤
      | some h => (h.t : WithTop ℚ)
    match o.hits sq ray 0 t_min with
    | some hit =>
      if (hit.t : WithTop ℚ) < t_min then hitsLoop sq ray rest (some hit)
      else hitsLoop sq ray rest acc
    | none => hitsLoop sq ray rest acc

def hits (sq : ℚ → ℚ) (ray : Ray) (scene : Scene) : Option Hit :=
  hitsLoop sq ray scene.objects none

/-- Modelled from the spec: `scale_rgb` comes from the external
`color_scaling` crate (not under src/); per spec §4.4 the sky is a "linear
blend between a horizon color and a zenith color", so each byte channel is
linearly interpolated (truncated back to a byte). -/
def scale_rgb (c1 c2 : Rgb) (t : ℚ) : Rgb :=
  ⟨(⌊(c1.r : ℚ) * (1 - t) + (c2.r : ℚ) * t⌋).toNat,
   (⌊(c1.g : ℚ) * (1 - t) + (c2.g : ℚ) * t⌋).toNat,
   (⌊(c1.b : ℚ) * (1 - t) + (c2.b : ℚ) * t⌋).toNat⟩

/-- The constant `let with_lambertian = false;` of `color` (src/raytracer.rs
line 394). -/
def with_lambertian : Bool := false

/-- The constant `let with_shadows = false;` of `color` (src/raytracer.rs
line 395). -/
def with_shadows : Bool := false

/-- The `if with_shadows { ... }` tail of `color`. -/
def shadowStep (sq : ℚ → ℚ) (scene : Scene) (c : Vec3) (hit_min : Hit) : Vec3 :=
  if with_shadows then
    match scene.sun with
    | some (sun, sun_color, softness) =>
      let start := hit_min.normal.at' hit_min.p EPSILON
      let sun_ray : Ray := ⟨start, sun⟩
      match hits sq sun_ray scene with
      | none => c.mix sun_color (1 - softness)
      | some _ => c.mult softness
    | none => c
  else c

/-- color (src/raytracer.rs): sky gradient on a miss; on a hit, the
(disabled) Lambertian recursion guarded by `depth > DEPTH_MAX`, else the
hit's own color; then the (disabled) shadow pass.  The per-bounce
`Vec3::random_in_unit_sphere()` draws are the stream `rnd`. -/
def color (sq : ℚ → ℚ) (rnd : ℕ → ℚ × ℚ × ℚ) (scene : Scene) (ray : Ray) (depth : ℕ) : Vec3 :=
  match hits sq ray scene with
  | none =>
    let daylight := true
    let c1 : Rgb := if daylight then ⟨255, 255, 255⟩ else ⟨20, 24, 42⟩
    let c2 : Rgb := if daylight then ⟨77, 143, 170⟩ else ⟨43, 47, 82⟩
    let ud := ray.direction.to_normalized sq
    rgbToVec3 (scale_rgb c2 c1 |ud.y|)
  | some hit_min =>
    if hl : with_lambertian then
      if depth > DEPTH_MAX then Vec3.new 0 0 0
      else
        let u := Vec3.random_in_unit_sphere sq (rnd depth).1 (rnd depth).2.1 (rnd depth).2.2
        let lam : Ray := ⟨hit_min.p, u.addv hit_min.normal⟩
        let c := (color sq rnd scene lam (depth + 1)).multv hit_min.color
        shadowStep sq scene c hit_min
    else
      shadowStep sq scene hit_min.color hit_min
termination_by DEPTH_MAX + 1 - depth
decreasing_by simp only [DEPTH_MAX] at *; omega

structure Footprint where
  ne : Vec3
  nw : Vec3
  se : Vec3
  sw : Vec3
deriving DecidableEq, Repr

def Footprint.get_real_position (fp : Footprint) (i j : ℚ) : Vec3 :=
  let e := fp.se.mix fp.ne j
  let w := fp.sw.mix fp.nw j
  w.mix e i

/-- Footprint::get_surface, verbatim: both `south` and `north` are computed
from the south corners `sw, se`. -/
def Footprint.get_surface (sq : ℚ → ℚ) (fp : Footprint) : ℚ :=
  let south := sq (fp.sw.length_sq_to fp.se)
  let north := sq (fp.sw.length_sq_to fp.se)
  let avg_south := fp.sw.avg fp.se
  let avg_north := fp.nw.avg fp.ne
  let h := sq (avg_south.length_sq_to avg_north)
  h * (south + (north - south) / 2)

/-- An RGBA byte pixel, as in `image::Rgba<u8>`. -/
structure Rgba where
  r : ℕ
  g : ℕ
  b : ℕ
  a : ℕ
deriving DecidableEq, Repr

/-- The sentinel `Rgba([255, 0, 255, 0])` marking a pixel as not yet computed. -/
def undone_color : Rgba := ⟨255, 0, 255, 0⟩

/-- Modelled from the spec: the `Into<Rgba<u8>>` conversion behind
`**pixel = Vec3::new(r, g, b).into()` in `render_scene` is not under src/
(src/maths.rs only has the `Rgb<u8>` case); per spec §6 the alpha channel
distinguishes "written" from "not yet written", so a computed pixel is the
clamped color bytes with alpha 255. -/
def vec3ToRgba (v : Vec3) : Rgba := ⟨convert v.x, convert v.y, convert v.z, 255⟩

/-- The per-pixel accumulation loop of `render_scene`: `nsamples` sample
colors (the jittered `cast_ray_from_eye` evaluations, abstracted as the
stream `sample`) are summed channel-wise, averaged, and converted. -/
def compute_pixel (sample : ℕ → Vec3) (nsamples : ℕ) : Rgba :=
  let acc := (List.range nsamples).foldl
    (fun (acc : ℚ × ℚ × ℚ) k =>
      let p := sample k
      (acc.1 + p.x, acc.2.1 + p.y, acc.2.2 + p.z))
    (0, 0, 0)
  vec3ToRgba (Vec3.new (acc.1 / nsamples) (acc.2.1 / nsamples) (acc.2.2 / nsamples))

/-- One pixel of `render_scene`'s worker body: recompute only a pixel that
still holds the sentinel; the Bool is the `worked` flag the code sets. -/
def render_pixel (sample : ℕ → ℕ → ℕ → Vec3) (nsamples : ℕ) (x y : ℕ) (pixel : Rgba) :
    Rgba × Bool :=
  if pixel = undone_color then (compute_pixel (sample x y) nsamples, true)
  else (pixel, false)

/-- The buffer after `render_scene`: every pixel passed (independently)
through `render_pixel`. -/
def render_scene (sample : ℕ → ℕ → ℕ → Vec3) (nsamples : ℕ) (buf : ℕ → ℕ → Rgba)
    (x y : ℕ) : Rgba :=
  (render_pixel sample nsamples x y (buf x y)).1

/-! scene.rs -/

structure PlacementCircle where
  center : Vec3
  radix : ℚ
deriving DecidableEq, Repr

def PlacementCircle.intersects (s other : PlacementCircle) : Bool :=
  let len_sq := s.center.length_sq_to other.center
  decide ((s.radix - other.radix) * (s.radix - other.radix) ≤ len_sq ∧
    len_sq ≤ (s.radix + other.radix) * (s.radix + other.radix))

def PlacementCircle.intersects_with_vect (c : PlacementCircle) (vec : List PlacementCircle) : Bool :=
  vec.any (fun o => c.intersects o)

/-- The exact value of the `f64` constant `std::f64::consts::PI`. -/
def PI64 : ℚ := 884279719003555 / 281474976710656

/-- The mutable locals of the `generate_forest_monte_carlo` loop. -/
structure MCState where
  width : ℚ
  r : ℚ
  surface : ℚ
  tries : ℕ
  vec : List PlacementCircle
  trees : ℕ
deriving DecidableEq, Repr

/-- The loop locals as initialized at the top of generate_forest_monte_carlo:
`width = 1.5`, `r = width / 4`. -/
def mcInit : MCState := ⟨3/2, (3/2)/4, 0, 0, [], 0⟩

/-- One iteration of the `loop` in generate_forest_monte_carlo, over one
triple of `rng.gen::<f64>()` draws `(i, j, factor draw)`; the Bool reports
whether the loop `break`s after it (accumulated surface reached
`surface_max`).  The `Conifer::new` side effect (pushing the object into the
scene) does not influence the loop state and is omitted. -/
def mcStep (fp : Footprint) (surface_max : ℚ) (rnd : ℚ × ℚ × ℚ) (s : MCState) :
    MCState × Bool :=
  let i := rnd.1
  let j := rnd.2.1
  let pos := fp.get_real_position i j
  let rnd_factor := 7/10 + 3/5 * rnd.2.2
  let this_r := s.r * rnd_factor
  let c : PlacementCircle := ⟨pos, s.r⟩
  if c.intersects_with_vect s.vec then
    let tries := s.tries + 1
    if tries > 50 then
      ({ s with tries := tries, width := s.width * (4/5), r := s.r * (4/5) }, false)
    else
      ({ s with tries := tries }, false)
  else
    let surface := s.surface + PI64 * this_r * this_r
    ({ s with tries := 0, vec := s.vec ++ [c], trees := s.trees + 1, surface := surface },
     decide (surface_max ≤ surface))

/-- The loop of generate_forest_monte_carlo, driven by the stream of random
draws, with explicit fuel: `some final` when the loop `break`s within `fuel`
iterations, `none` otherwise. -/
def runMC (fp : Footprint) (surface_max : ℚ) (stream : ℕ → ℚ × ℚ × ℚ) :
    ℕ → MCState → Option MCState
  | 0, _ => none
  | fuel + 1, s =>
    let sb := mcStep fp surface_max (stream 0) s
    if sb.2 then some sb.1
    else runMC fp surface_max (fun n => stream (n + 1)) fuel sb.1

/-- Scene::generate_forest_monte_carlo: `surface_max` is the footprint
surface times the threshold, and the loop starts from `mcInit`. -/
def generate_forest_monte_carlo (sq : ℚ → ℚ) (fp : Footprint) (threshold : ℚ)
    (stream : ℕ → ℚ × ℚ × ℚ) (fuel : ℕ) : Option MCState :=
  runMC fp (fp.get_surface sq * threshold) stream fuel mcInit

/-! Helper lemmas about `ratSqrt` and `convert` -/

theorem ratSqrt_eq (r q : ℚ) (h0 : 0 ≤ r) (h : r * r = q) : ratSqrt q = r := by
  subst h
  unfold ratSqrt
  rw [Rat.mul_self_num, Rat.mul_self_den]
  have hnn : 0 ≤ r.num := Rat.num_nonneg.mpr h0
  obtain ⟨n, hn⟩ : ∃ n : ℕ, r.num = (n : ℤ) := ⟨r.num.toNat, (Int.toNat_of_nonneg hnn).symm⟩
  rw [hn, show ((n : ℤ) * n).toNat = n * n by omega, Nat.sqrt_eq, Nat.sqrt_eq]
  conv_rhs => rw [← Rat.num_div_den r]
  rw [hn]
  norm_num

theorem ratSqrt_one : ratSqrt 1 = 1 := ratSqrt_eq 1 1 (by norm_num) (by norm_num)

theorem ratSqrt_quarter : ratSqrt (1 / 4) = 1 / 2 :=
  ratSqrt_eq (1 / 2) (1 / 4) (by norm_num) (by norm_num)

theorem ratSqrt_2304 : ratSqrt 2304 = 48 := ratSqrt_eq 48 2304 (by norm_num) (by norm_num)

theorem ratSqrt_10000 : ratSqrt 10000 = 100 :=
  ratSqrt_eq 100 10000 (by norm_num) (by norm_num)

theorem natSqrt_5376 : Nat.sqrt 5376 = 73 :=
  (Nat.eq_sqrt.mpr (by norm_num)).symm

theorem ratSqrt_5376 : ratSqrt 5376 = 73 := by
  unfold ratSqrt
  rw [show ((5376 : ℚ).num) = (5376 : ℤ) by norm_num,
    show ((5376 : ℤ).toNat) = 5376 from rfl,
    show ((5376 : ℚ).den) = 1 by norm_num, natSqrt_5376, Nat.sqrt_one]
  norm_num

theorem convert_le_zero (u : ℚ) (h : u ≤ 0) : convert u = 0 := by
  unfold convert
  simp [h]

theorem convert_ge_one (u : ℚ) (h : 1 ≤ u) : convert u = 255 := by
  unfold convert
  rw [if_neg (by linarith), if_pos h]

theorem convert_roundtrip (u : ℚ) (h0 : 0 ≤ u) (h1 : u ≤ 1) :
    |u - (convert u : ℚ) / 256| ≤ 1 / 256 := by
  unfold convert
  by_cases hle : u ≤ 0
  · have hu : u = 0 := le_antisymm hle h0
    rw [if_pos hle, hu]
    norm_num
  · rw [if_neg hle]
    by_cases hge : 1 ≤ u
    · have hu : u = 1 := le_antisymm h1 hge
      rw [if_pos hge, hu]
      push_cast
      rw [show (1 : ℚ) - 255 / 256 = 1 / 256 by norm_num,
        abs_of_nonneg (by norm_num : (0 : ℚ) ≤ 1 / 256)]
    · rw [if_neg hge]
      push_neg at hle hge
      have hf0 : 0 ≤ ⌊u * 256⌋ := Int.floor_nonneg.mpr (by positivity)
      have hfl : (⌊u * 256⌋ : ℚ) ≤ u * 256 := Int.floor_le _
      have hfu : u * 256 < ⌊u * 256⌋ + 1 := Int.lt_floor_add_one _
      rw [← Int.toNat_of_nonneg hf0] at hfl hfu
      push_cast at hfl hfu
      rw [abs_le]
      constructor <;> linarith

/-- Claim C6: on the inputs a = (2,5,−2), b = (3,−1,−2), c = (−4,2,3),
p = (−5,15,3), solve_3variable_system returns Some (2,1,3) exactly (every
intermediate value of the elimination on these inputs is a small dyadic-free
rational and the final divisions are exact, so the f64 computation matches the
exact one). -/
theorem C6_solver_exact :
    solve_3variable_system ⟨2, 5, -2⟩ ⟨3, -1, -2⟩ ⟨-4, 2, 3⟩ ⟨-5, 15, 3⟩ =
      some ⟨2, 1, 3⟩ := by
  norm_num [solve_3variable_system, rowElim]

/-- Claim C10: Footprint::get_surface returns exactly
distance(sw,se) · distance(midpoint(sw,se), midpoint(nw,ne)): the `north`
length in the trapezoid formula is computed from the south corners `sw, se`,
so the result is unchanged under any replacement of the north corners that
keeps their midpoint. -/
theorem C10_get_surface_south_only (sq : ℚ → ℚ) (fp : Footprint) :
    fp.get_surface sq =
      sq (fp.sw.length_sq_to fp.se) *
        sq ((fp.sw.avg fp.se).length_sq_to (fp.nw.avg fp.ne)) ∧
    ∀ nw' ne', nw'.avg ne' = fp.nw.avg fp.ne →
      Footprint.get_surface sq ⟨ne', nw', fp.se, fp.sw⟩ = fp.get_surface sq := by
  constructor
  · simp only [Footprint.get_surface]
    ring
  · intro nw' ne' h
    simp only [Footprint.get_surface]
    rw [h]

/-- Witness for C10 at a unit-square footprint: collapsing both north corners
onto the north midpoint leaves get_surface unchanged. -/
theorem C10_witness :
    Footprint.get_surface ratSqrt ⟨⟨1/2, 0, 1⟩, ⟨1/2, 0, 1⟩, ⟨1, 0, 0⟩, ⟨0, 0, 0⟩⟩ =
      Footprint.get_surface ratSqrt ⟨⟨1, 0, 1⟩, ⟨0, 0, 1⟩, ⟨1, 0, 0⟩, ⟨0, 0, 0⟩⟩ :=
  (C10_get_surface_south_only ratSqrt ⟨⟨1, 0, 1⟩, ⟨0, 0, 1⟩, ⟨1, 0, 0⟩, ⟨0, 0, 0⟩⟩).2
    ⟨1/2, 0, 1⟩ ⟨1/2, 0, 1⟩ (by norm_num [Vec3.avg])

/-- Claim C8: converting a vector with components in [0,1] to an Rgb pixel and
back recovers each component within one quantization step (1/256), and on any
vector a component ≤ 0 converts to byte 0 and a component ≥ 1 to byte 255. -/
theorem C8_roundtrip_and_clamp (v : Vec3) :
    (0 ≤ v.x → v.x ≤ 1 → 0 ≤ v.y → v.y ≤ 1 → 0 ≤ v.z → v.z ≤ 1 →
      |v.x - (rgbToVec3 (vec3ToRgb v)).x| ≤ 1 / 256 ∧
      |v.y - (rgbToVec3 (vec3ToRgb v)).y| ≤ 1 / 256 ∧
      |v.z - (rgbToVec3 (vec3ToRgb v)).z| ≤ 1 / 256) ∧
    (v.x ≤ 0 → (vec3ToRgb v).r = 0) ∧ (1 ≤ v.x → (vec3ToRgb v).r = 255) ∧
    (v.y ≤ 0 → (vec3ToRgb v).g = 0) ∧ (1 ≤ v.y → (vec3ToRgb v).g = 255) ∧
    (v.z ≤ 0 → (vec3ToRgb v).b = 0) ∧ (1 ≤ v.z → (vec3ToRgb v).b = 255) := by
  refine ⟨fun hx0 hx1 hy0 hy1 hz0 hz1 => ⟨?_, ?_, ?_⟩, ?_, ?_, ?_, ?_, ?_, ?_⟩ <;>
    simp only [vec3ToRgb, rgbToVec3]
  · exact convert_roundtrip v.x hx0 hx1
  · exact convert_roundtrip v.y hy0 hy1
  · exact convert_roundtrip v.z hz0 hz1
  · exact fun h => convert_le_zero v.x h
  · exact fun h => convert_ge_one v.x h
  · exact fun h => convert_le_zero v.y h
  · exact fun h => convert_ge_one v.y h
  · exact fun h => convert_le_zero v.z h
  · exact fun h => convert_ge_one v.z h

/-- Witness for C8 at (1/2, 3/4, 1) (round trip) and (−1, 2, 0) (clamping). -/
theorem C8_witness :
    |(1 : ℚ)/2 - (rgbToVec3 (vec3ToRgb ⟨1/2, 3/4, 1⟩)).x| ≤ 1 / 256 ∧
    (vec3ToRgb ⟨-1, 2, 0⟩).r = 0 ∧ (vec3ToRgb ⟨-1, 2, 0⟩).g = 255 := by
  refine ⟨?_, ?_, ?_⟩
  · exact ((C8_roundtrip_and_clamp ⟨1/2, 3/4, 1⟩).1 (by norm_num) (by norm_num) (by norm_num)
      (by norm_num) (by norm_num) (by norm_num)).1
  · exact (C8_roundtrip_and_clamp ⟨-1, 2, 0⟩).2.1 (by norm_num)
  · exact (C8_roundtrip_and_clamp ⟨-1, 2, 0⟩).2.2.2.2.1 (by norm_num)

/-- Claim C9 counterexample: at the random draws (3/4, 1/2, 1/2) the sampled
vector is (1/2, 0, 0) and random_in_unit_sphere returns (1, 0, 0), whose
(squared) length is exactly 1 — not strictly less than 1. -/
theorem C9_counterexample :
    ¬ (Vec3.random_in_unit_sphere ratSqrt (3/4) (1/2) (1/2)).length_sq < 1 := by
  have h : Vec3.random_in_unit_sphere ratSqrt (3/4) (1/2) (1/2) = ⟨1, 0, 0⟩ := by
    norm_num [Vec3.random_in_unit_sphere, Vec3.new, Vec3.to_normalized, Vec3.length_sq,
      ratSqrt_quarter]
  rw [h]
  norm_num [Vec3.length_sq]

/-- Claim C9 amended: random_in_unit_sphere returns the sampled vector
normalized, a point ON the unit sphere, not strictly inside it: whenever the
square root of the sample's squared length is exact and nonzero, the returned
vector has squared length exactly 1. -/
theorem C9_amended_on_sphere (sq : ℚ → ℚ) (r1 r2 r3 : ℚ)
    (h : sq (Vec3.new (2*r1-1) (2*r2-1) (2*r3-1)).length_sq *
          sq (Vec3.new (2*r1-1) (2*r2-1) (2*r3-1)).length_sq =
        (Vec3.new (2*r1-1) (2*r2-1) (2*r3-1)).length_sq)
    (hne : sq (Vec3.new (2*r1-1) (2*r2-1) (2*r3-1)).length_sq ≠ 0) :
    (Vec3.random_in_unit_sphere sq r1 r2 r3).length_sq = 1 := by
  simp only [Vec3.random_in_unit_sphere, Vec3.to_normalized, Vec3.length_sq, Vec3.new] at *
  field_simp
  linarith [h]

/-- Witness for the amended C9 at the draws (3/4, 1/2, 1/2). -/
theorem C9_amended_witness :
    (Vec3.random_in_unit_sphere ratSqrt (3/4) (1/2) (1/2)).length_sq = 1 := by
  apply C9_amended_on_sphere ratSqrt (3/4) (1/2) (1/2) <;>
    norm_num [Vec3.new, Vec3.length_sq, ratSqrt_quarter]

/-- Claim C4 counterexample: for the ray from the origin with direction
(1, 0, −2⁻²¹) and the plane through (0,0,−1) with normal (0,0,1), the
alignment |direction·normal| = 2⁻²¹ is below EPSILON, yet Plan::hits on the
interval (0, 2²²) returns the hit at t = 2²¹ instead of rejecting the
near-parallel ray. -/
theorem C4_counterexample :
    |(Vec3.mk 1 0 (-(1/2097152))).dot_product ⟨0, 0, 1⟩| < EPSILON ∧
    Plan.hits ⟨⟨0, 0, -1⟩, ⟨0, 0, 1⟩, ⟨0, 0, 0⟩⟩ ⟨⟨0, 0, 0⟩, ⟨1, 0, -(1/2097152)⟩⟩ 0
        ((4194304 : ℚ) : WithTop ℚ) =
      some ⟨⟨0, 0, 0⟩, ⟨0, 0, 1⟩, ⟨2097152, 0, -1⟩, 2097152⟩ := by
  constructor
  · norm_num [Vec3.dot_product, EPSILON, abs_lt]
  · simp only [Plan.hits, Vec3.dot_product, Vec3.to', Ray.at', Vec3.at', EPSILON,
      WithTop.coe_le_coe]
    norm_num [Vec3.mk.injEq, Hit.mk.injEq]

/-- Claim C4 amended: Plan::hits rejects exactly the rays whose
direction·normal is at least EPSILON (back-facing or normal-aligned rays);
a near-parallel ray with |direction·normal| < EPSILON is not rejected
outright and can return a hit if its plane parameter lands in the interval. -/
theorem C4_amended_reject (pl : Plan) (ray : Ray) (tmin : ℚ) (tmax : WithTop ℚ)
    (h : EPSILON ≤ ray.direction.dot_product pl.normal) :
    pl.hits ray tmin tmax = none := by
  unfold Plan.hits
  rw [if_pos h]

/-- Witness for the amended C4: a ray aligned with the normal is rejected. -/
theorem C4_witness :
    Plan.hits ⟨⟨0, 0, 0⟩, ⟨0, 0, 1⟩, ⟨0, 0, 0⟩⟩ ⟨⟨0, 0, 0⟩, ⟨0, 0, 1⟩⟩ 0 ⊤ = none :=
  C4_amended_reject _ _ _ _ (by norm_num [Vec3.dot_product, EPSILON])

/-- The ellipsoid intersection exactly as claim C5 words it: the unit-sphere
hit's point AND normal are both mapped back by the inverse transform (scaled
by the radii, translated by +center). -/
def Ellipsoid.hitsSpecC5 (sq : ℚ → ℚ) (e : Ellipsoid) (ray : Ray) (tmin : ℚ)
    (tmax : WithTop ℚ) : Option Hit :=
  let ray2 : Ray := ⟨(ray.origin.addv e.translation).multv e.inv_radii,
                     ray.direction.multv e.inv_radii⟩
  match e.sphere.hits sq ray2 tmin tmax with
  | some hit => some ⟨hit.color, (hit.normal.multv e.radii).addv e.center,
      (hit.p.multv e.radii).addv e.center, hit.t⟩
  | none => none

/-- The same pipeline with only the point mapped back and the normal passed
through unchanged, which is what the code does. -/
def Ellipsoid.hitsSpecC5amended (sq : ℚ → ℚ) (e : Ellipsoid) (ray : Ray) (tmin : ℚ)
    (tmax : WithTop ℚ) : Option Hit :=
  let ray2 : Ray := ⟨(ray.origin.addv e.translation).multv e.inv_radii,
                     ray.direction.multv e.inv_radii⟩
  match e.sphere.hits sq ray2 tmin tmax with
  | some hit => some ⟨hit.color, hit.normal, (hit.p.multv e.radii).addv e.center, hit.t⟩
  | none => none

/-- Claim C5 counterexample: for the ellipsoid centered at the origin with
radii (1,1,2) and the ray from (0,0,−4) along +z, Ellipsoid::hits returns the
unit-sphere normal (0,0,−1) unchanged, while the claim's both-mapped-back
reading demands (0,0,−2); the two disagree at this input. -/
theorem C5_counterexample :
    Ellipsoid.hits ratSqrt (Ellipsoid.new ⟨0, 0, 0⟩ ⟨1, 1, 2⟩ ⟨0, 0, 255⟩)
        ⟨⟨0, 0, -4⟩, ⟨0, 0, 1⟩⟩ 0 ⊤ =
      some ⟨⟨0, 0, 255/256⟩, ⟨0, 0, -1⟩, ⟨0, 0, -2⟩, 2⟩ ∧
    Ellipsoid.hitsSpecC5 ratSqrt (Ellipsoid.new ⟨0, 0, 0⟩ ⟨1, 1, 2⟩ ⟨0, 0, 255⟩)
        ⟨⟨0, 0, -4⟩, ⟨0, 0, 1⟩⟩ 0 ⊤ =
      some ⟨⟨0, 0, 255/256⟩, ⟨0, 0, -2⟩, ⟨0, 0, -2⟩, 2⟩ ∧
    Ellipsoid.hits ratSqrt (Ellipsoid.new ⟨0, 0, 0⟩ ⟨1, 1, 2⟩ ⟨0, 0, 255⟩)
        ⟨⟨0, 0, -4⟩, ⟨0, 0, 1⟩⟩ 0 ⊤ ≠
      Ellipsoid.hitsSpecC5 ratSqrt (Ellipsoid.new ⟨0, 0, 0⟩ ⟨1, 1, 2⟩ ⟨0, 0, 255⟩)
        ⟨⟨0, 0, -4⟩, ⟨0, 0, 1⟩⟩ 0 ⊤ := by
  have h1 : Ellipsoid.hits ratSqrt (Ellipsoid.new ⟨0, 0, 0⟩ ⟨1, 1, 2⟩ ⟨0, 0, 255⟩)
      ⟨⟨0, 0, -4⟩, ⟨0, 0, 1⟩⟩ 0 ⊤ =
      some ⟨⟨0, 0, 255/256⟩, ⟨0, 0, -1⟩, ⟨0, 0, -2⟩, 2⟩ := by
    simp only [Ellipsoid.hits, Ellipsoid.new, Sphere.new, Sphere.hits, Vec3.origin,
      Vec3.opposite, Vec3.inverted, Vec3.addv, Vec3.multv, Vec3.dot_product, Vec3.to',
      Vec3.div, Ray.at', Vec3.at', rgbToVec3, convert, WithTop.coe_lt_top, and_true]
    norm_num [ratSqrt_quarter, Vec3.mk.injEq, Hit.mk.injEq]
  have h2 : Ellipsoid.hitsSpecC5 ratSqrt (Ellipsoid.new ⟨0, 0, 0⟩ ⟨1, 1, 2⟩ ⟨0, 0, 255⟩)
      ⟨⟨0, 0, -4⟩, ⟨0, 0, 1⟩⟩ 0 ⊤ =
      some ⟨⟨0, 0, 255/256⟩, ⟨0, 0, -2⟩, ⟨0, 0, -2⟩, 2⟩ := by
    simp only [Ellipsoid.hitsSpecC5, Ellipsoid.new, Sphere.new, Sphere.hits, Vec3.origin,
      Vec3.opposite, Vec3.inverted, Vec3.addv, Vec3.multv, Vec3.dot_product, Vec3.to',
      Vec3.div, Ray.at', Vec3.at', rgbToVec3, convert, WithTop.coe_lt_top, and_true]
    norm_num [ratSqrt_quarter, Vec3.mk.injEq, Hit.mk.injEq]
  refine ⟨h1, h2, ?_⟩
  rw [h1, h2]
  simp only [ne_eq, Option.some.injEq, Hit.mk.injEq, Vec3.mk.injEq]
  norm_num

/-- Claim C5 amended: Ellipsoid::hits equals the spec's transform-delegate-map
pipeline with only the hit point mapped back by the inverse transform; the
normal (and t) are returned unchanged from the unit-sphere test. -/
theorem C5_amended_point_only (sq : ℚ → ℚ) (e : Ellipsoid) (ray : Ray) (tmin : ℚ)
    (tmax : WithTop ℚ) :
    e.hits sq ray tmin tmax = e.hitsSpecC5amended sq ray tmin tmax := rfl

/-- Claim C3 counterexample: a scene with one red sphere at (0,0,−5), the ray
from the origin along −z (which hits it at t = 4), and depth 9 > DEPTH_MAX:
color returns the sphere's color (255/256, 0, 0), not black — the depth
cutoff sits inside the disabled `with_lambertian` branch. -/
theorem C3_counterexample :
    9 > DEPTH_MAX ∧
    hits ratSqrt ⟨⟨0, 0, 0⟩, ⟨0, 0, -1⟩⟩
        ⟨[BaseObject.sphere (Sphere.new ⟨0, 0, -5⟩ 1 ⟨255, 0, 0⟩)], none⟩ =
      some ⟨⟨255/256, 0, 0⟩, ⟨0, 0, 1⟩, ⟨0, 0, -4⟩, 4⟩ ∧
    color ratSqrt (fun _ => (0, 0, 0))
        ⟨[BaseObject.sphere (Sphere.new ⟨0, 0, -5⟩ 1 ⟨255, 0, 0⟩)], none⟩
        ⟨⟨0, 0, 0⟩, ⟨0, 0, -1⟩⟩ 9 ≠ Vec3.new 0 0 0 := by
  have h : hits ratSqrt ⟨⟨0, 0, 0⟩, ⟨0, 0, -1⟩⟩
      ⟨[BaseObject.sphere (Sphere.new ⟨0, 0, -5⟩ 1 ⟨255, 0, 0⟩)], none⟩ =
      some ⟨⟨255/256, 0, 0⟩, ⟨0, 0, 1⟩, ⟨0, 0, -4⟩, 4⟩ := by
    simp only [hits, hitsLoop, BaseObject.hits, Sphere.hits, Sphere.new, Vec3.dot_product,
      Vec3.to', Vec3.div, Ray.at', Vec3.at', rgbToVec3, convert, WithTop.coe_lt_top,
      and_true]
    norm_num [ratSqrt_one, Vec3.mk.injEq, Hit.mk.injEq]
  refine ⟨by norm_num [DEPTH_MAX], h, ?_⟩
  rw [color, h]
  simp only [with_lambertian, Bool.false_eq_true, dite_false, shadowStep, with_shadows,
    if_false, Bool.false_eq_true]
  simp only [ne_eq, Vec3.new, Vec3.mk.injEq]
  norm_num

/-- Claim C3 amended: because `with_lambertian` is the constant false, a ray
that hits an object gets the nearest hit's stored color at EVERY depth,
including depth > DEPTH_MAX; the return-black depth cutoff is inside the
disabled Lambertian branch and never fires. -/
theorem C3_amended_hit_color (sq : ℚ → ℚ) (rnd : ℕ → ℚ × ℚ × ℚ) (scene : Scene)
    (ray : Ray) (depth : ℕ) (hit : Hit) (h : hits sq ray scene = some hit) :
    color sq rnd scene ray depth = hit.color := by
  rw [color, h]
  simp only [with_lambertian, Bool.false_eq_true, dite_false, shadowStep, with_shadows,
    if_false]

/-- Witness for the amended C3 at the one-sphere scene, depth 9. -/
theorem C3_amended_witness :
    color ratSqrt (fun _ => (0, 0, 0))
        ⟨[BaseObject.sphere (Sphere.new ⟨0, 0, -5⟩ 1 ⟨255, 0, 0⟩)], none⟩
        ⟨⟨0, 0, 0⟩, ⟨0, 0, -1⟩⟩ 9 = Vec3.mk (255/256) 0 0 := by
  have h : hits ratSqrt ⟨⟨0, 0, 0⟩, ⟨0, 0, -1⟩⟩
      ⟨[BaseObject.sphere (Sphere.new ⟨0, 0, -5⟩ 1 ⟨255, 0, 0⟩)], none⟩ =
      some ⟨⟨255/256, 0, 0⟩, ⟨0, 0, 1⟩, ⟨0, 0, -4⟩, 4⟩ := by
    simp only [hits, hitsLoop, BaseObject.hits, Sphere.hits, Sphere.new, Vec3.dot_product,
      Vec3.to', Vec3.div, Ray.at', Vec3.at', rgbToVec3, convert, WithTop.coe_lt_top,
      and_true]
    norm_num [ratSqrt_one, Vec3.mk.injEq, Hit.mk.injEq]
  rw [C3_amended_hit_color ratSqrt (fun _ => (0, 0, 0)) _ _ 9 _ h]

/-- A computed pixel always carries alpha 255, so it can never equal the
sentinel (whose alpha is 0). -/
theorem compute_pixel_ne_undone (f : ℕ → Vec3) (n : ℕ) :
    compute_pixel f n ≠ undone_color := by
  intro h
  have h255 := congrArg Rgba.a h
  simp only [compute_pixel, vec3ToRgba, undone_color] at h255
  exact absurd h255 (by norm_num)

/-- Claim C7: a pixel is recomputed (worked flag raised and the fresh average
written) iff it currently holds the sentinel; a non-sentinel pixel is left
unchanged; the rendered buffer holds no sentinel pixel, so re-running the
render performs zero pixel computations (every worked flag is false) and the
buffer is byte-identical. -/
theorem C7_render_idempotent (sample : ℕ → ℕ → ℕ → Vec3) (nsamples : ℕ)
    (buf : ℕ → ℕ → Rgba) (x y : ℕ) :
    ((render_pixel sample nsamples x y (buf x y)).2 = true ↔ buf x y = undone_color) ∧
    (buf x y = undone_color →
      render_scene sample nsamples buf x y = compute_pixel (sample x y) nsamples) ∧
    (buf x y ≠ undone_color → render_scene sample nsamples buf x y = buf x y) ∧
    render_scene sample nsamples buf x y ≠ undone_color ∧
    (render_pixel sample nsamples x y (render_scene sample nsamples buf x y)).2 = false ∧
    render_scene sample nsamples (render_scene sample nsamples buf) x y =
      render_scene sample nsamples buf x y := by
  by_cases h : buf x y = undone_color
  · refine ⟨by simp [render_pixel, h], fun _ => by simp [render_scene, render_pixel, h],
      fun hn => absurd h hn, ?_, ?_, ?_⟩
    · simp only [render_scene, render_pixel, h, if_pos]
      exact compute_pixel_ne_undone _ _
    · simp [render_pixel, render_scene, h, compute_pixel_ne_undone]
    · simp [render_scene, render_pixel, h, compute_pixel_ne_undone]
  · refine ⟨by simp [render_pixel, h], fun he => absurd he h,
      fun _ => by simp [render_scene, render_pixel, h], ?_, ?_, ?_⟩
    · simp only [render_scene, render_pixel, if_neg h]
      exact h
    · simp [render_pixel, render_scene, h]
    · simp [render_scene, render_pixel, h]

/-- Witness for C7: a sentinel pixel is recomputed, a non-sentinel pixel is
returned untouched. -/
theorem C7_witness :
    render_scene (fun _ _ _ => ⟨1, 0, 0⟩) 1 (fun _ _ => undone_color) 0 0 =
      compute_pixel (fun _ => ⟨1, 0, 0⟩) 1 ∧
    render_scene (fun _ _ _ => ⟨1, 0, 0⟩) 1 (fun _ _ => ⟨0, 0, 0, 255⟩) 0 0 =
      ⟨0, 0, 0, 255⟩ :=
  ⟨(C7_render_idempotent (fun _ _ _ => ⟨1, 0, 0⟩) 1 (fun _ _ => undone_color) 0 0).2.1 rfl,
   (C7_render_idempotent (fun _ _ _ => ⟨1, 0, 0⟩) 1 (fun _ _ => ⟨0, 0, 0, 255⟩) 0 0).2.2.1
     (by decide)⟩

/-- Plan::hits only returns hits strictly inside (tmin, tmax). -/
theorem planHits_t_mem {pl : Plan} {ray : Ray} {tmin : ℚ} {tmax : WithTop ℚ} {hit : Hit}
    (h : pl.hits ray tmin tmax = some hit) :
    tmin < hit.t ∧ (hit.t : WithTop ℚ) < tmax := by
  simp only [Plan.hits] at h
  split_ifs at h with h1 h2
  push_neg at h2
  injection h with h
  subst h
  exact ⟨h2.1, h2.2⟩

/-- Sphere::hits only returns hits strictly inside (tmin, tmax). -/
theorem sphereHits_t_mem {sq : ℚ → ℚ} {s : Sphere} {ray : Ray} {tmin : ℚ}
    {tmax : WithTop ℚ} {hit : Hit} (h : s.hits sq ray tmin tmax = some hit) :
    tmin < hit.t ∧ (hit.t : WithTop ℚ) < tmax := by
  simp only [Sphere.hits] at h
  split_ifs at h with h1 h2 h3
  · injection h with h
    subst h
    exact h2
  · injection h with h
    subst h
    exact h3

/-- Ellipsoid::hits only returns hits strictly inside (tmin, tmax) (it
delegates to the sphere test on the same interval and keeps its t). -/
theorem ellipsoidHits_t_mem {sq : ℚ → ℚ} {e : Ellipsoid} {ray : Ray} {tmin : ℚ}
    {tmax : WithTop ℚ} {hit : Hit} (h : e.hits sq ray tmin tmax = some hit) :
    tmin < hit.t ∧ (hit.t : WithTop ℚ) < tmax := by
  simp only [Ellipsoid.hits] at h
  split at h
  · rename_i hit0 hs
    obtain ⟨hb1, hb2⟩ := sphereHits_t_mem hs
    injection h with h
    subst h
    exact ⟨hb1, hb2⟩
  · exact Option.noConfusion h

/-- Triangle::hits only returns hits strictly inside (tmin, tmax). -/
theorem triangleHits_t_mem {tr : Triangle} {ray : Ray} {tmin : ℚ} {tmax : WithTop ℚ}
    {hit : Hit} (h : tr.hits ray tmin tmax = some hit) :
    tmin < hit.t ∧ (hit.t : WithTop ℚ) < tmax := by
  simp only [Triangle.hits] at h
  split_ifs at h with h1 h2
  push_neg at h2
  split at h
  · split_ifs at h
    injection h with h
    subst h
    exact ⟨h2.1, h2.2⟩
  · exact Option.noConfusion h

/-- The shared child scan: provided every child hit (queried on a (0, ·)
interval) has positive t, a returned nearest hit satisfies
tmin ≤ t ≤ tmax and 0 < t. -/
theorem nearestLoop_t_mem {α : Type} (f : α → WithTop ℚ → Option Hit) (tmin : ℚ)
    (tmax : WithTop ℚ) (hf : ∀ o tm hit, f o tm = some hit → 0 < hit.t) :
    ∀ (l : List α) (t_min : WithTop ℚ) (acc : Option Hit),
      (∀ h0, acc = some h0 → tmin ≤ h0.t ∧ (h0.t : WithTop ℚ) ≤ tmax ∧ 0 < h0.t) →
      ∀ hit : Hit, nearestLoop f tmin tmax l t_min acc = some hit →
      tmin ≤ hit.t ∧ (hit.t : WithTop ℚ) ≤ tmax ∧ 0 < hit.t := by
  intro l
  induction l with
  | nil =>
    intro t_min acc hacc hit h
    simp only [nearestLoop] at h
    exact hacc hit h
  | cons o rest ih =>
    intro t_min acc hacc hit h
    simp only [nearestLoop] at h
    split at h
    · rename_i hit' hfo
      split_ifs at h with hcond
      · refine ih _ _ ?_ hit h
        intro h0 he
        injection he with he
        subst he
        exact ⟨hcond.2.1, hcond.2.2, hf o t_min _ hfo⟩
      · exact ih t_min acc hacc hit h
    · exact ih t_min acc hacc hit h

/-- Tetrahedron::hits returns hits with tmin ≤ t ≤ tmax (closed ends) and
0 < t. -/
theorem tetraHits_t_mem {th : Tetrahedron} {ray : Ray} {tmin : ℚ}
    {tmax : WithTop ℚ} {hit : Hit} (h : th.hits ray tmin tmax = some hit) :
    tmin ≤ hit.t ∧ (hit.t : WithTop ℚ) ≤ tmax ∧ 0 < hit.t := by
  refine nearestLoop_t_mem _ tmin tmax ?_ _ ⊤ none (fun h0 he => by cases he) hit h
  intro o tm hit' h'
  exact (triangleHits_t_mem h').1

/-- Conifer::hits returns hits with tmin ≤ t ≤ tmax (closed ends) and 0 < t. -/
theorem coniferHits_t_mem {sq : ℚ → ℚ} {cf : Conifer} {ray : Ray} {tmin : ℚ}
    {tmax : WithTop ℚ} {hit : Hit} (h : cf.hits sq ray tmin tmax = some hit) :
    tmin ≤ hit.t ∧ (hit.t : WithTop ℚ) ≤ tmax ∧ 0 < hit.t := by
  simp only [Conifer.hits] at h
  split at h
  · refine nearestLoop_t_mem _ tmin tmax ?_ _ ⊤ none (fun h0 he => by cases he) hit h
    intro o tm hit' h'
    exact (tetraHits_t_mem h').2.2
  · exact Option.noConfusion h

/-- Each child object stored in an Owl or Signature, queried on a (0, ·)
interval, yields a hit with positive t. -/
theorem SubObject.hits_pos {sq : ℚ → ℚ} {o : SubObject} {ray : Ray} {tm : WithTop ℚ}
    {hit : Hit} (h : o.hits sq ray 0 tm = some hit) : 0 < hit.t := by
  cases o with
  | sphere s => exact (sphereHits_t_mem (h : s.hits sq ray 0 tm = some hit)).1
  | ellipsoid e => exact (ellipsoidHits_t_mem (h : e.hits sq ray 0 tm = some hit)).1
  | tetrahedron t => exact (tetraHits_t_mem (h : t.hits ray 0 tm = some hit)).2.2

/-- Owl::hits returns hits with tmin ≤ t ≤ tmax (closed ends) and 0 < t. -/
theorem owlHits_t_mem {sq : ℚ → ℚ} {ow : Owl} {ray : Ray} {tmin : ℚ}
    {tmax : WithTop ℚ} {hit : Hit} (h : ow.hits sq ray tmin tmax = some hit) :
    tmin ≤ hit.t ∧ (hit.t : WithTop ℚ) ≤ tmax ∧ 0 < hit.t := by
  simp only [Owl.hits] at h
  split at h
  · refine nearestLoop_t_mem _ tmin tmax ?_ _ ⊤ none (fun h0 he => by cases he) hit h
    intro o tm hit' h'
    exact SubObject.hits_pos h'
  · exact Option.noConfusion h

/-- Signature::hits returns hits with tmin ≤ t ≤ tmax (closed ends) and
0 < t. -/
theorem signatureHits_t_mem {sq : ℚ → ℚ} {sg : Signature} {ray : Ray} {tmin : ℚ}
    {tmax : WithTop ℚ} {hit : Hit} (h : sg.hits sq ray tmin tmax = some hit) :
    tmin ≤ hit.t ∧ (hit.t : WithTop ℚ) ≤ tmax ∧ 0 < hit.t := by
  simp only [Signature.hits] at h
  split at h
  · refine nearestLoop_t_mem _ tmin tmax ?_ _ ⊤ none (fun h0 he => by cases he) hit h
    intro o tm hit' h'
    exact SubObject.hits_pos h'
  · exact Option.noConfusion h

/-- Claim C1 amended: every primitive returns a hit inside the query interval,
but the interval is strictly open at both ends only for Plan, Sphere,
Ellipsoid and Triangle; for the composite objects (Tetrahedron, Conifer, Owl,
Signature) the bound test is `hit.t >= tmin && hit.t <= tmax`, closed at both
ends, together with 0 < t from the children's (0, ·) sub-queries. -/
theorem C1_hits_interval (sq : ℚ → ℚ) (o : BaseObject) (ray : Ray) (tmin : ℚ)
    (tmax : WithTop ℚ) (hit : Hit) (h : o.hits sq ray tmin tmax = some hit) :
    tmin ≤ hit.t ∧ (hit.t : WithTop ℚ) ≤ tmax ∧
      (match o with
       | .plan _ => tmin < hit.t ∧ (hit.t : WithTop ℚ) < tmax
       | .sphere _ => tmin < hit.t ∧ (hit.t : WithTop ℚ) < tmax
       | .ellipsoid _ => tmin < hit.t ∧ (hit.t : WithTop ℚ) < tmax
       | .triangle _ => tmin < hit.t ∧ (hit.t : WithTop ℚ) < tmax
       | _ => 0 < hit.t) := by
  cases o with
  | plan p =>
    obtain ⟨h1, h2⟩ := planHits_t_mem (h : p.hits ray tmin tmax = some hit)
    exact ⟨le_of_lt h1, le_of_lt h2, h1, h2⟩
  | sphere s =>
    obtain ⟨h1, h2⟩ := sphereHits_t_mem (h : s.hits sq ray tmin tmax = some hit)
    exact ⟨le_of_lt h1, le_of_lt h2, h1, h2⟩
  | ellipsoid e =>
    obtain ⟨h1, h2⟩ := ellipsoidHits_t_mem (h : e.hits sq ray tmin tmax = some hit)
    exact ⟨le_of_lt h1, le_of_lt h2, h1, h2⟩
  | triangle t =>
    obtain ⟨h1, h2⟩ := triangleHits_t_mem (h : t.hits ray tmin tmax = some hit)
    exact ⟨le_of_lt h1, le_of_lt h2, h1, h2⟩
  | tetrahedron t => exact tetraHits_t_mem (h : t.hits ray tmin tmax = some hit)
  | conifer c => exact coniferHits_t_mem (h : c.hits sq ray tmin tmax = some hit)
  | owl o => exact owlHits_t_mem (h : o.hits sq ray tmin tmax = some hit)
  | signature s => exact signatureHits_t_mem (h : s.hits sq ray tmin tmax = some hit)

set_option maxHeartbeats 1000000 in
/-- Claim C1 counterexample: for a tetrahedron whose base triangle lies in the
plane y = 1 (apex (0,9,0)), the vertical ray from (0, 9/2, 0) downward meets
the base at t = 7/2; queried on the interval bounds tmin = 7/2, tmax = 21/2,
Tetrahedron::hits returns that hit with h.t = tmin — the interval is NOT
strictly open at the lower end for composite objects. -/
theorem C1_counterexample :
    Tetrahedron.hits
        ⟨Triangle.new_ref ratSqrt ⟨4, 1, 0⟩ ⟨0, 1, 4⟩ ⟨-4, 1, -4⟩ ⟨255, 0, 0⟩,
         Triangle.new_ref ratSqrt ⟨4, 1, 0⟩ ⟨-4, 1, -4⟩ ⟨0, 9, 0⟩ ⟨255, 0, 0⟩,
         Triangle.new_ref ratSqrt ⟨-4, 1, -4⟩ ⟨0, 1, 4⟩ ⟨0, 9, 0⟩ ⟨255, 0, 0⟩,
         Triangle.new_ref ratSqrt ⟨0, 1, 4⟩ ⟨4, 1, 0⟩ ⟨0, 9, 0⟩ ⟨255, 0, 0⟩,
         rgbToVec3 ⟨255, 0, 0⟩⟩
        ⟨⟨0, 9/2, 0⟩, ⟨0, -1, 0⟩⟩ (7/2) ((21/2 : ℚ) : WithTop ℚ) =
      some ⟨⟨255/256, 0, 0⟩, ⟨0, 1, 0⟩, ⟨0, 1, 0⟩, 7/2⟩ ∧
    ¬ ((7/2 : ℚ) < 7/2) := by
  have hb : Triangle.new_ref ratSqrt ⟨4, 1, 0⟩ ⟨0, 1, 4⟩ ⟨-4, 1, -4⟩ ⟨255, 0, 0⟩ =
      ⟨⟨4, 1, 0⟩, ⟨0, 1, 4⟩, ⟨-4, 1, -4⟩, ⟨0, 1, 0⟩, ⟨255/256, 0, 0⟩⟩ := by
    norm_num [Triangle.new_ref, Vec3.new_clean, Vec3.cleanup, EPSILON, Vec3.to',
      Vec3.cross_product, Vec3.to_normalized, Vec3.length_sq, ratSqrt_2304, rgbToVec3,
      convert, Vec3.mk.injEq, Triangle.mk.injEq]
  have hs1 : Triangle.new_ref ratSqrt ⟨4, 1, 0⟩ ⟨-4, 1, -4⟩ ⟨0, 9, 0⟩ ⟨255, 0, 0⟩ =
      ⟨⟨4, 1, 0⟩, ⟨-4, 1, -4⟩, ⟨0, 9, 0⟩, ⟨-32/73, -16/73, 64/73⟩, ⟨255/256, 0, 0⟩⟩ := by
    norm_num [Triangle.new_ref, Vec3.new_clean, Vec3.cleanup, EPSILON, Vec3.to',
      Vec3.cross_product, Vec3.to_normalized, Vec3.length_sq, ratSqrt_5376, rgbToVec3,
      convert, Vec3.mk.injEq, Triangle.mk.injEq]
  have hs2 : Triangle.new_ref ratSqrt ⟨-4, 1, -4⟩ ⟨0, 1, 4⟩ ⟨0, 9, 0⟩ ⟨255, 0, 0⟩ =
      ⟨⟨-4, 1, -4⟩, ⟨0, 1, 4⟩, ⟨0, 9, 0⟩, ⟨64/73, -16/73, -32/73⟩, ⟨255/256, 0, 0⟩⟩ := by
    norm_num [Triangle.new_ref, Vec3.new_clean, Vec3.cleanup, EPSILON, Vec3.to',
      Vec3.cross_product, Vec3.to_normalized, Vec3.length_sq, ratSqrt_5376, rgbToVec3,
      convert, Vec3.mk.injEq, Triangle.mk.injEq]
  have hs3 : Triangle.new_ref ratSqrt ⟨0, 1, 4⟩ ⟨4, 1, 0⟩ ⟨0, 9, 0⟩ ⟨255, 0, 0⟩ =
      ⟨⟨0, 1, 4⟩, ⟨4, 1, 0⟩, ⟨0, 9, 0⟩, ⟨-2/3, -1/3, -2/3⟩, ⟨255/256, 0, 0⟩⟩ := by
    norm_num [Triangle.new_ref, Vec3.new_clean, Vec3.cleanup, EPSILON, Vec3.to',
      Vec3.cross_product, Vec3.to_normalized, Vec3.length_sq, ratSqrt_2304, rgbToVec3,
      convert, Vec3.mk.injEq, Triangle.mk.injEq]
  rw [hb, hs1, hs2, hs3]
  constructor
  · simp only [Tetrahedron.hits, nearestLoop, Triangle.hits, Vec3.dot_product, Vec3.to',
      Ray.at', Vec3.at', WithTop.coe_lt_top, WithTop.coe_le_coe, WithTop.coe_lt_coe,
      WithTop.not_top_le_coe]
    norm_num [solve_3variable_system, rowElim, WithTop.coe_lt_top, WithTop.coe_le_coe,
      WithTop.coe_lt_coe, WithTop.not_top_le_coe, Vec3.mk.injEq, Hit.mk.injEq]
  · norm_num

set_option maxHeartbeats 1000000 in
/-- Witness for the amended C1 at a sphere: the hit at t = 9/2 on the interval
(0, 21/2) satisfies the closed bounds and, the sphere being an atomic
primitive, the strict ones. -/
theorem C1_witness :
    (0 : ℚ) ≤ 9/2 ∧ (((9/2 : ℚ) : WithTop ℚ) ≤ ((21/2 : ℚ) : WithTop ℚ)) ∧
      ((0 : ℚ) < 9/2 ∧ ((9/2 : ℚ) : WithTop ℚ) < ((21/2 : ℚ) : WithTop ℚ)) := by
  have h : BaseObject.hits ratSqrt (BaseObject.sphere (Sphere.new ⟨0, 0, -5⟩ 1 ⟨255, 0, 0⟩))
      ⟨⟨0, 0, 1/2⟩, ⟨0, 0, -1⟩⟩ 0 ((21/2 : ℚ) : WithTop ℚ) =
      some ⟨⟨255/256, 0, 0⟩, ⟨0, 0, 1⟩, ⟨0, 0, -4⟩, 9/2⟩ := by
    simp only [BaseObject.hits, Sphere.hits, Sphere.new, Vec3.dot_product, Vec3.to',
      Vec3.div, Ray.at', Vec3.at', rgbToVec3, convert, WithTop.coe_lt_coe]
    norm_num [ratSqrt_one, Vec3.mk.injEq, Hit.mk.injEq]
  exact C1_hits_interval ratSqrt _ _ 0 _ _ h

theorem Vec3.length_sq_to_comm (s p : Vec3) : s.length_sq_to p = p.length_sq_to s := by
  unfold Vec3.length_sq_to
  ring

theorem PlacementCircle.intersects_comm (c1 c2 : PlacementCircle) :
    c1.intersects c2 = c2.intersects c1 := by
  unfold PlacementCircle.intersects
  rw [show (c1.radix - c2.radix) * (c1.radix - c2.radix) =
        (c2.radix - c1.radix) * (c2.radix - c1.radix) by ring,
      show (c1.radix + c2.radix) * (c1.radix + c2.radix) =
        (c2.radix + c1.radix) * (c2.radix + c1.radix) by ring,
      Vec3.length_sq_to_comm]

/-- The Monte-Carlo loop breaks only when the accumulated surface has reached
surface_max. -/
theorem mcStep_done_surface (fp : Footprint) (smax : ℚ) (rnd : ℚ × ℚ × ℚ) (s : MCState) :
    (mcStep fp smax rnd s).2 = true → smax ≤ (mcStep fp smax rnd s).1.surface := by
  simp only [mcStep]
  split_ifs with h1 h2 <;> intro h
  · exact absurd h (by simp)
  · exact absurd h (by simp)
  · simp only [decide_eq_true_eq] at h
    simpa using h

/-- Each accepted circle passes the pairwise test against all previously
accepted circles, so the accepted list stays pairwise non-intersecting. -/
theorem mcStep_pairwise (fp : Footprint) (smax : ℚ) (rnd : ℚ × ℚ × ℚ) (s : MCState)
    (h : List.Pairwise (fun a b => a.intersects b = false) s.vec) :
    List.Pairwise (fun a b => a.intersects b = false) (mcStep fp smax rnd s).1.vec := by
  simp only [mcStep]
  split_ifs with h1 h2
  · simpa using h
  · simpa using h
  · simp only
    rw [List.pairwise_append]
    refine ⟨h, List.pairwise_singleton _ _, ?_⟩
    intro a ha b hb
    simp only [List.mem_singleton] at hb
    subst hb
    rw [PlacementCircle.intersects_comm]
    simp only [PlacementCircle.intersects_with_vect, Bool.not_eq_true, List.any_eq_false]
      at h1
    exact Bool.not_eq_true _ ▸ h1 a ha

/-- If the Monte-Carlo loop terminates (breaks), the final surface has reached
surface_max and the accepted circles are pairwise non-intersecting. -/
theorem runMC_some_inv (fp : Footprint) (smax : ℚ) :
    ∀ (fuel : ℕ) (stream : ℕ → ℚ × ℚ × ℚ) (s final : MCState),
      List.Pairwise (fun a b => a.intersects b = false) s.vec →
      runMC fp smax stream fuel s = some final →
      smax ≤ final.surface ∧
        List.Pairwise (fun a b => a.intersects b = false) final.vec := by
  intro fuel
  induction fuel with
  | zero => intro stream s final _ h; exact Option.noConfusion h
  | succ n ih =>
    intro stream s final hp h
    simp only [runMC] at h
    split_ifs at h with hd
    · injection h with h
      subst h
      exact ⟨mcStep_done_surface fp smax (stream 0) s hd,
        mcStep_pairwise fp smax (stream 0) s hp⟩
    · exact ih _ _ final (mcStep_pairwise fp smax (stream 0) s hp) h

/-- Claim C2 amended: if generate_forest_monte_carlo terminates, the
accumulated sum of placed circle areas has reached threshold × footprint
surface, and no two accepted exclusion circles intersect per the pairwise
test; termination itself, however, is not guaranteed for every random
stream (see the counterexample: a constant stream starves the loop). -/
theorem C2_amended_partial (sq : ℚ → ℚ) (fp : Footprint) (threshold : ℚ)
    (stream : ℕ → ℚ × ℚ × ℚ) (fuel : ℕ) (final : MCState)
    (h : generate_forest_monte_carlo sq fp threshold stream fuel = some final) :
    fp.get_surface sq * threshold ≤ final.surface ∧
    List.Pairwise (fun a b => a.intersects b = false) final.vec :=
  runMC_some_inv fp _ fuel stream mcInit final (by simp [mcInit]) h

set_option maxHeartbeats 1000000 in
/-- Witness for the amended C2: on a unit-square footprint with threshold 1/4
and a constant stream, the loop breaks after one accepted tree, and the
conclusion of the partial-correctness theorem holds at that final state. -/
theorem C2_amended_witness :
    Footprint.get_surface ratSqrt ⟨⟨1, 0, 1⟩, ⟨0, 0, 1⟩, ⟨1, 0, 0⟩, ⟨0, 0, 0⟩⟩ * (1/4) ≤
      (7958517471031995 / 18014398509481984 : ℚ) ∧
    List.Pairwise (fun a b => a.intersects b = false)
      [(⟨⟨1/2, 0, 1/2⟩, 3/8⟩ : PlacementCircle)] := by
  have h : generate_forest_monte_carlo ratSqrt ⟨⟨1, 0, 1⟩, ⟨0, 0, 1⟩, ⟨1, 0, 0⟩, ⟨0, 0, 0⟩⟩
      (1/4) (fun _ => (1/2, 1/2, 1/2)) 1 =
      some ⟨3/2, 3/8, 7958517471031995 / 18014398509481984, 0,
        [⟨⟨1/2, 0, 1/2⟩, 3/8⟩], 1⟩ := by
    norm_num [generate_forest_monte_carlo, runMC, mcStep, mcInit, Footprint.get_surface,
      Footprint.get_real_position, Vec3.length_sq_to, Vec3.avg, Vec3.mix, ratSqrt_one,
      PlacementCircle.intersects_with_vect, PI64, decide_eq_true_eq, Vec3.mk.injEq,
      MCState.mk.injEq, PlacementCircle.mk.injEq]
  exact C2_amended_partial ratSqrt _ (1/4) _ 1 _ h

/-- The 100×100 square footprint (surface 10000) used to exhibit
non-termination of the Monte-Carlo placement under a constant random
stream. -/
def mcFp100 : Footprint := ⟨⟨100, 0, 100⟩, ⟨0, 0, 100⟩, ⟨100, 0, 0⟩, ⟨0, 0, 0⟩⟩

/-- Invariant of the Monte-Carlo loop state under the constant stream
(1/2, 1/2, 1/2) on mcFp100: every accepted circle sits at the single sampled
point (50, 0, 50) with radius at least the current working radius, and the
accumulated surface plus the (geometric-series) potential of the remaining
placements stays below (25/64)·π — so the surface can never reach the
5000 needed to break. -/
def mcConstInv (s : MCState) : Prop :=
  0 < s.r ∧
  (∀ c ∈ s.vec, c.center = ⟨50, 0, 50⟩ ∧ s.r ≤ c.radix) ∧
  (((∃ c ∈ s.vec, c.radix = s.r) ∧
      s.surface + (16/9) * PI64 * (s.r * s.r) ≤ (25/64) * PI64) ∨
   ((∀ c ∈ s.vec, c.radix ≠ s.r) ∧
      s.surface + (25/9) * PI64 * (s.r * s.r) ≤ (25/64) * PI64))

/-- Two circles at the same center intersect (per the code's test) exactly
when their radii are equal. -/
theorem intersects_same_center (p : Vec3) (r0 r1 : ℚ) :
    PlacementCircle.intersects ⟨p, r0⟩ ⟨p, r1⟩ = true ↔ r0 = r1 := by
  have hL : p.length_sq_to p = 0 := by
    unfold Vec3.length_sq_to
    ring
  simp only [PlacementCircle.intersects, hL, decide_eq_true_eq]
  constructor
  · rintro ⟨h1, -⟩
    have h2 : (r0 - r1) * (r0 - r1) = 0 :=
      le_antisymm h1 (mul_self_nonneg _)
    have := mul_self_eq_zero.mp h2
    linarith
  · rintro rfl
    exact ⟨by simp, by nlinarith [mul_self_nonneg (r0 + r0)]⟩

theorem pi64_pos : (0 : ℚ) < PI64 := by norm_num [PI64]

theorem pi64_le_four : PI64 ≤ 4 := by norm_num [PI64]

set_option maxHeartbeats 1000000 in
/-- One constant-stream step on mcFp100 preserves the invariant and never
breaks the loop. -/
theorem mcStep_const_preserves (s : MCState) (hInv : mcConstInv s) :
    mcConstInv (mcStep mcFp100 5000 (1/2, 1/2, 1/2) s).1 ∧
    (mcStep mcFp100 5000 (1/2, 1/2, 1/2) s).2 = false := by
  obtain ⟨hr, hvec, hbound⟩ := hInv
  have hpos : Footprint.get_real_position mcFp100 (1/2) (1/2) = ⟨50, 0, 50⟩ := by
    norm_num [Footprint.get_real_position, Vec3.mix, mcFp100, Vec3.mk.injEq]
  have hrf : (7/10 + 3/5 * (1/2 : ℚ)) = 1 := by norm_num
  have hiff : PlacementCircle.intersects_with_vect ⟨⟨50, 0, 50⟩, s.r⟩ s.vec = true ↔
      ∃ c ∈ s.vec, c.radix = s.r := by
    simp only [PlacementCircle.intersects_with_vect, List.any_eq_true]
    constructor
    · rintro ⟨o, ho, hint⟩
      rcases o with ⟨oc, orad⟩
      obtain ⟨hoc, -⟩ := hvec ⟨oc, orad⟩ ho
      simp only at hoc
      subst hoc
      exact ⟨⟨⟨50, 0, 50⟩, orad⟩, ho, ((intersects_same_center _ _ _).mp hint).symm⟩
    · rintro ⟨o, ho, hrad⟩
      rcases o with ⟨oc, orad⟩
      obtain ⟨hoc, -⟩ := hvec ⟨oc, orad⟩ ho
      simp only at hoc hrad
      subst hoc
      exact ⟨_, ho, (intersects_same_center _ _ _).mpr hrad.symm⟩
  simp only [mcStep, hpos, hrf, mul_one]
  by_cases hI : PlacementCircle.intersects_with_vect ⟨⟨50, 0, 50⟩, s.r⟩ s.vec = true
  · -- rejection: some accepted circle has the current radius
    have hex := hiff.mp hI
    have hL : s.surface + (16/9) * PI64 * (s.r * s.r) ≤ (25/64) * PI64 := by
      rcases hbound with ⟨-, hb⟩ | ⟨hne, -⟩
      · exact hb
      · obtain ⟨c, hc, he⟩ := hex
        exact absurd he (hne c hc)
    rw [if_pos hI]
    split_ifs with htr
    · -- shrink the working radius by 4/5
      refine ⟨⟨?_, ?_, ?_⟩, rfl⟩
      · show (0 : ℚ) < s.r * (4/5)
        linarith
      · intro c hc
        obtain ⟨h1, h2⟩ := hvec c hc
        refine ⟨h1, ?_⟩
        show s.r * (4/5) ≤ c.radix
        nlinarith
      · refine Or.inr ⟨?_, ?_⟩
        · intro c hc
          obtain ⟨-, h2⟩ := hvec c hc
          show c.radix ≠ s.r * (4/5)
          have hlt : s.r * (4/5) < s.r := by nlinarith
          exact fun he => absurd (he ▸ h2) (not_le.mpr (by linarith))
        · show s.surface + (25/9) * PI64 * ((s.r * (4/5)) * (s.r * (4/5))) ≤ (25/64) * PI64
          have heq : (25/9) * PI64 * ((s.r * (4/5)) * (s.r * (4/5))) =
              (16/9) * PI64 * (s.r * s.r) := by ring
          linarith
    · -- rejection without shrink: state otherwise unchanged
      exact ⟨⟨hr, hvec, hbound⟩, rfl⟩
  · -- acceptance: no accepted circle has the current radius
    have hne : ∀ c ∈ s.vec, c.radix ≠ s.r := by
      intro c hc he
      exact hI (hiff.mpr ⟨c, hc, he⟩)
    have hR : s.surface + (25/9) * PI64 * (s.r * s.r) ≤ (25/64) * PI64 := by
      rcases hbound with ⟨⟨c, hc, he⟩, -⟩ | ⟨-, hb⟩
      · exact absurd he (hne c hc)
      · exact hb
    rw [if_neg hI]
    have hrr : (0 : ℚ) ≤ PI64 * (s.r * s.r) :=
      mul_nonneg (le_of_lt pi64_pos) (mul_self_nonneg s.r)
    have hsurf : s.surface + PI64 * s.r * s.r < 5000 := by
      have h4 := pi64_le_four
      nlinarith [mul_self_nonneg s.r]
    constructor
    · refine ⟨hr, ?_, Or.inl ⟨⟨⟨⟨50, 0, 50⟩, s.r⟩, by simp, rfl⟩, ?_⟩⟩
      · intro c hc
        simp only [List.mem_append, List.mem_singleton] at hc
        rcases hc with hc | rfl
        · exact hvec c hc
        · exact ⟨rfl, le_refl _⟩
      · show s.surface + PI64 * s.r * s.r + (16/9) * PI64 * (s.r * s.r) ≤ (25/64) * PI64
        have heq : PI64 * s.r * s.r + (16/9) * PI64 * (s.r * s.r) =
            (25/9) * PI64 * (s.r * s.r) := by ring
        linarith
    · show decide ((5000 : ℚ) ≤ s.surface + PI64 * s.r * s.r) = false
      simp only [decide_eq_false_iff_not, not_le]
      exact hsurf

/-- Under the constant stream the loop never breaks, whatever the fuel. -/
theorem runMC_const_none :
    ∀ (fuel : ℕ) (stream : ℕ → ℚ × ℚ × ℚ), (∀ n, stream n = (1/2, 1/2, 1/2)) →
    ∀ s : MCState, mcConstInv s → runMC mcFp100 5000 stream fuel s = none := by
  intro fuel
  induction fuel with
  | zero => intro stream _ s _; rfl
  | succ n ih =>
    intro stream hstr s hs
    simp only [runMC, hstr 0]
    obtain ⟨hInv', hdone⟩ := mcStep_const_preserves s hs
    rw [hdone]
    simp only [Bool.false_eq_true, if_false]
    exact ih _ (fun n => hstr (n + 1)) _ hInv'

theorem mcInit_const_inv : mcConstInv mcInit := by
  refine ⟨by norm_num [mcInit], by simp [mcInit], Or.inr ⟨by simp [mcInit], ?_⟩⟩
  have heq : (0 : ℚ) + (25/9) * PI64 * ((3/2/4) * (3/2/4)) = (25/64) * PI64 := by ring
  simp only [mcInit]
  linarith

/-- Claim C2 counterexample: with the admissible threshold 1/2 and the
non-degenerate 100×100 footprint, the constant random stream (1/2, 1/2, 1/2)
makes generate_forest_monte_carlo loop forever: every acceptance must shrink
past all previous radii, so the placed areas form a geometric series bounded
by (25/64)·π < 2, far below the required 5000 — no fuel suffices. -/
theorem C2_counterexample :
    (0 : ℚ) < 1/2 ∧ (1/2 : ℚ) < 1 ∧
    ¬ ∃ (fuel : ℕ) (final : MCState),
        generate_forest_monte_carlo ratSqrt mcFp100 (1/2) (fun _ => (1/2, 1/2, 1/2)) fuel =
          some final := by
  refine ⟨by norm_num, by norm_num, ?_⟩
  rintro ⟨fuel, final, h⟩
  have hsm : Footprint.get_surface ratSqrt mcFp100 * (1/2) = 5000 := by
    norm_num [Footprint.get_surface, Vec3.length_sq_to, Vec3.avg, mcFp100, ratSqrt_10000]
  simp only [generate_forest_monte_carlo, hsm] at h
  rw [runMC_const_none fuel _ (fun n => rfl) mcInit mcInit_const_inv] at h
  exact Option.noConfusion h
